import Mathlib

/-!
Verification development for the lumina-ai-demo job-execution engine.

Part 1 embeds the streaming block pipeline of
`src/NanoImageEditApp/_nuitka_build/test.py` (`StreamingFlux2Transformer`):
`_stream_blocks` streams an ordered list of transformer blocks through a
2-slot GPU-resident pool (prefetch next block on a copy stream, compute the
current block, offload it back to CPU pinned memory), and `__call__` runs
the double-stream block family followed by the single-stream block family.

Part 2 embeds the task engine of `src/FLUX_app/runner.py` and
`src/OCR_app/runner.py`: task records, creation, cancellation, the worker
loop, the timeout/cancel disambiguation, retention purge and VRAM cleanup.
-/

namespace Lumina

/-- Residency events of the streaming pipeline: `load i` is the (asynchronous)
transfer of block `i` into a resident slot, `compute i` is block `i`'s
computation, `evict i` is the offload of block `i` back to the reserved
(CPU pinned) tier. -/
inductive Ev where
  | load : Nat → Ev
  | compute : Nat → Ev
  | evict : Nat → Ev
deriving DecidableEq, Repr

/-- Loop body of `StreamingFlux2Transformer._stream_blocks`: for each block
`i` (global index), first issue the prefetch of block `i+1` when one exists,
then compute block `i` threading the running state through `f`, then offload
block `i`.  Returns the final state and the residency/compute event trace. -/
def streamLoop {α : Type} (fs : List (α → α)) (i : Nat) (s : α) : α × List Ev :=
  match fs with
  | [] => (s, [])
  | f :: rest =>
    let pre : List Ev :=
      match rest with
      | [] => []
      | _ :: _ => [Ev.load (i + 1)]
    let out := streamLoop rest (i + 1) (f s)
    (out.1, pre ++ Ev.compute i :: Ev.evict i :: out.2)

/-- Embedding of `StreamingFlux2Transformer._stream_blocks`: pre-load block
`i0` (the first
block, synchronous wait), then run the loop.  `i0` is the global index of the
family's first block. -/
def streamRunFrom {α : Type} (fs : List (α → α)) (i0 : Nat) (s : α) : α × List Ev :=
  match fs with
  | [] => (s, [])
  | _ :: _ =>
    let out := streamLoop fs i0 s
    (out.1, Ev.load i0 :: out.2)

/-- Reference execution (from the spec's words): run all blocks sequentially,
fully resident, in index order — plain left fold of the block functions over
the running state. -/
def runSequential {α : Type} (fs : List (α → α)) (s : α) : α :=
  fs.foldl (fun a f => f a) s

/-- Abstraction of `StreamingFlux2Transformer.__call__`: the always-resident
small components (input projections, concatenation of the text and image
streams, removal of text tokens, output norm and projection) and the two
block families.  Double-stream blocks act on the pair
(hidden_states, encoder_hidden_states); single-stream blocks act on the
concatenated stream. -/
structure CallModel (H E C O : Type) where
  xEmbed : H → H
  ctxEmbed : E → E
  doubleBlocks : List (H × E → H × E)
  concatStreams : E → H → C
  singleBlocks : List (C → C)
  removeTxt : C → C
  normOut : C → C
  projOut : C → O

/-- Streaming forward pass (`StreamingFlux2Transformer.__call__`): input
projections, then the double-stream family streamed through the 2-slot pool,
then concatenation, then the single-stream family streamed through the pool,
then output layers.  Blocks carry global indices: double blocks `0..a-1`,
single blocks `a..a+b-1`.  Returns the output and the residency trace. -/
def streamingCall {H E C O : Type} (m : CallModel H E C O) (hs : H) (ehs : E) :
    O × List Ev :=
  let hs1 := m.xEmbed hs
  let ehs1 := m.ctxEmbed ehs
  let outA := streamRunFrom m.doubleBlocks 0 (hs1, ehs1)
  let c0 := m.concatStreams outA.1.2 outA.1.1
  let outB := streamRunFrom m.singleBlocks m.doubleBlocks.length c0
  (m.projOut (m.normOut (m.removeTxt outB.1)), outA.2 ++ outB.2)

/-- Reference forward pass (from the spec's words): identical computation
with every block executed sequentially, fully resident, no streaming. -/
def referenceCall {H E C O : Type} (m : CallModel H E C O) (hs : H) (ehs : E) : O :=
  let hs1 := m.xEmbed hs
  let ehs1 := m.ctxEmbed ehs
  let p := runSequential m.doubleBlocks (hs1, ehs1)
  let c0 := m.concatStreams p.2 p.1
  let c1 := runSequential m.singleBlocks c0
  m.projOut (m.normOut (m.removeTxt c1))

/-- Resident-set transition of one residency event. -/
def applyEv (s : Finset Nat) : Ev → Finset Nat
  | Ev.load i => insert i s
  | Ev.compute _ => s
  | Ev.evict i => s.erase i

/-- Checks, along a trace starting from resident set `s`, that the block being
computed is always resident and that the resident count never exceeds 2 at
any instant. -/
def checkInv (s : Finset Nat) : List Ev → Bool
  | [] => true
  | e :: tr =>
    (match e with
     | Ev.compute i => decide (i ∈ s)
     | _ => true)
    && decide ((applyEv s e).card ≤ 2)
    && checkInv (applyEv s e) tr

/-- Checks that every `compute i` event is immediately followed by `evict i`. -/
def checkEvictAfter : List Ev → Bool
  | [] => true
  | Ev.compute i :: tr =>
    (match tr with
     | Ev.evict j :: _ => decide (i = j)
     | _ => false)
    && checkEvictAfter tr
  | _ :: tr => checkEvictAfter tr

/-- The indices of the compute events of a trace, in order. -/
def computeIndices : List Ev → List Nat
  | [] => []
  | Ev.compute i :: tr => i :: computeIndices tr
  | _ :: tr => computeIndices tr

/-! ## Part 2: the task engine of `FLUX_app/runner.py` and `OCR_app/runner.py`

Timestamps (`time.time()` floats) are modelled as integers; the `progress`
float is modelled in thousandths (0.02 → 20, 1.0 → 1000 — every progress
constant in the source is an exact multiple of 0.001).  Formatted message
strings interpolate `toString` of the integer elapsed time where the source
interpolates a formatted float. -/

/-- Task lifecycle states (the `status` strings of the task dicts). -/
inductive Status where
  | queued
  | processing
  | done
  | error
  | cancelled
  | timeout
deriving DecidableEq, Repr

/-- Membership in the tuple `("DONE", "ERROR", "CANCELLED", "TIMEOUT")` used
throughout both runners. -/
def Status.isTerminal : Status → Bool
  | .done => true
  | .error => true
  | .cancelled => true
  | .timeout => true
  | _ => false

/-- One task dict of the `tasks` registry. -/
structure TaskRecord where
  status : Status
  progress : Nat
  message : String
  result : String
  error : String
  task_type : String
  image_path : Option String
  created_at : Int
  started_at : Option Int
  finished_at : Option Int
  cancel_requested : Bool
deriving DecidableEq, Repr

/-- The fresh QUEUED record inserted by the create action
(`runner.py`, `action == "create"`). -/
def newTaskRecord (task_type : String) (image_path : Option String) (now : Int) :
    TaskRecord where
  status := .queued
  progress := 0
  message := "Queued."
  result := ""
  error := ""
  task_type := task_type
  image_path := image_path
  created_at := now
  started_at := none
  finished_at := none
  cancel_requested := false

/-- The shared mutable state: the `tasks` registry (insertion-ordered map,
modelled as an association list keyed by task id) and the FIFO `task_queue`
of pending task ids. -/
structure EngineState where
  tasks : List (Nat × TaskRecord)
  queue : List Nat
deriving DecidableEq, Repr

/-- Registry read `tasks.get(task_id)`. -/
def lookupTask (tasks : List (Nat × TaskRecord)) (id : Nat) : Option TaskRecord :=
  (tasks.find? (fun p => p.1 = id)).map Prod.snd

/-- In-place mutation of the record stored under `id`. -/
def updateStore (tasks : List (Nat × TaskRecord)) (id : Nat) (r : TaskRecord) :
    List (Nat × TaskRecord) :=
  tasks.map (fun p => if p.1 = id then (p.1, r) else p)

/-- The active-record count `sum(1 for t in tasks.values() if t["status"] in
("QUEUED", "PROCESSING"))`. -/
def activeCount (tasks : List (Nat × TaskRecord)) : Nat :=
  (tasks.filter (fun p => p.2.status = Status.queued ∨ p.2.status = Status.processing)).length

/-- The create action of `FLUX_app/runner.py` (`do_POST`, `action == "create"`):
insert the new QUEUED record into the registry, compute the queue position as
the count of active records (taken after the insertion), enqueue the id.
Returns the new state and the reported `queue_position`. -/
def fluxCreate (st : EngineState) (id : Nat) (task_type : String) (now : Int) :
    EngineState × Nat :=
  let tasks1 := st.tasks ++ [(id, newTaskRecord task_type none now)]
  let queue_pos := activeCount tasks1
  ({ tasks := tasks1, queue := st.queue ++ [id] }, queue_pos)

/-- The task tags registered in `OCR_app/runner.py` (`PROMPTS` keys). -/
def ocrPromptKeys : List String :=
  ["ocr", "table", "formula", "chart", "spotting", "seal"]

/-- The create action of `OCR_app/runner.py` (`do_POST`, `action == "create"`):
reject when `image_path` is missing, empty, or does not name an existing file
(existence supplied by the environment predicate `fileExists`), or when the
task tag is not a registered prompt; otherwise insert the QUEUED record and
enqueue, reporting the active count taken after insertion.  On rejection the
state is returned unchanged alongside the error message. -/
def ocrCreate (fileExists : String → Bool) (st : EngineState) (id : Nat)
    (image_path : Option String) (task_type : String) (now : Int) :
    EngineState × Except String Nat :=
  match image_path with
  | none => (st, Except.error "Missing or invalid image_path")
  | some p =>
    if p = "" then
      (st, Except.error "Missing or invalid image_path")
    else if !(fileExists p) then
      (st, Except.error "Missing or invalid image_path")
    else if !(ocrPromptKeys.contains task_type) then
      (st, Except.error ("Unknown task: " ++ task_type))
    else
      let tasks1 := st.tasks ++ [(id, newTaskRecord task_type (some p) now)]
      let queue_pos := activeCount tasks1
      ({ tasks := tasks1, queue := st.queue ++ [id] }, Except.ok queue_pos)

/-- The cancel action (`do_POST`, `action == "cancel"`), restricted to a found
record: already-terminal records are returned unchanged; otherwise the cancel
flag is set, and a record still QUEUED transitions directly to CANCELLED with
the "Cancelled while queued." message and a stamped `finished_at`. -/
def cancelRecord (t : TaskRecord) (now : Int) : TaskRecord :=
  if t.status.isTerminal then t
  else
    let t1 := { t with cancel_requested := true }
    if t1.status = Status.queued then
      { t1 with
        status := .cancelled
        finished_at := some now
        message := "Cancelled while queued." }
    else t1

/-- Outcome of invoking the work function on a job, as observed at the
Executor boundary: a result, the distinguished `TaskCancelled` unwind, or any
other exception carrying its message. -/
inductive Outcome where
  | ok : String → Outcome
  | cancelledMarker : Outcome
  | failure : String → Outcome
deriving DecidableEq, Repr

/-- Side-effecting steps of the worker body whose order matters for the
claims: writing the terminal status, `_cleanup_vram()`, `_purge_old_tasks()`. -/
inductive WAction where
  | markTerminal
  | cleanupVram
  | purge
deriving DecidableEq, Repr

/-- Result of the worker handling one dequeued item: the mutated record,
whether the work function was invoked, and the ordered side-effect steps. -/
structure StepResult where
  record : TaskRecord
  workInvoked : Bool
  actions : List WAction
deriving DecidableEq, Repr

/-- Elapsed time `time.time() - (t.get("started_at") or now)`: Python's `or`
falls through to `now` when `started_at` is `None` or `0`. -/
def elapsedSince (started_at : Option Int) (now fin : Int) : Int :=
  fin - (match started_at with
         | none => now
         | some s => if s = 0 then now else s)

/-- The `except TaskCancelled` branch of `worker()`: re-read the record,
classify TIMEOUT when elapsed time is at or beyond `TASK_TIMEOUT_SECONDS`
(populating `error`), otherwise CANCELLED, stamping `finished_at` either way. -/
def handleCancelledUnwind (t : TaskRecord) (ceiling now fin : Int) : TaskRecord :=
  let elapsed := elapsedSince t.started_at now fin
  if ceiling ≤ elapsed then
    { t with
      status := .timeout
      finished_at := some fin
      message := "Timed out after " ++ toString elapsed ++ "s"
      error := "Task exceeded " ++ toString ceiling ++ "s limit" }
  else
    { t with
      status := .cancelled
      finished_at := some fin
      message := "Cancelled by user (" ++ toString elapsed ++ "s elapsed)" }

/-- The body of `worker()` for one dequeued item whose record was found:
if `cancel_requested` is already set the work function is skipped and the
record is stamped CANCELLED ("Cancelled before processing."); otherwise the
record transitions to PROCESSING with `started_at` stamped, the work function
runs, and its outcome is written back (DONE / TIMEOUT-or-CANCELLED / ERROR).
`dq` is the dequeue time (`now` in the source), `fin` the time the outcome is
observed. -/
def workerStep (t : TaskRecord) (ceiling dq fin : Int) (oc : Outcome) : StepResult :=
  if t.cancel_requested then
    { record := { t with
        status := .cancelled
        finished_at := some dq
        message := "Cancelled before processing." }
      workInvoked := false
      actions := [WAction.markTerminal] }
  else
    let t1 := { t with
      status := Status.processing
      started_at := some dq
      progress := 20
      message := "Starting..." }
    match oc with
    | .ok res =>
      { record := { t1 with
          status := .done
          progress := 1000
          result := res
          finished_at := some fin
          message := "Completed in " ++ toString (fin - dq) ++ "s" }
        workInvoked := true
        actions := [WAction.markTerminal, WAction.purge] }
    | .cancelledMarker =>
      { record := handleCancelledUnwind t1 ceiling dq fin
        workInvoked := true
        actions := [WAction.markTerminal, WAction.cleanupVram, WAction.purge] }
    | .failure msg =>
      { record := { t1 with
          status := Status.error
          error := msg
          finished_at := some fin
          message := "Error after " ++ toString (fin - dq) ++ "s: " ++ msg }
        workInvoked := true
        actions := [WAction.markTerminal, WAction.cleanupVram, WAction.purge] }

/-- Stable insertion by `created_at` (strictly-smaller keys go in front, equal
keys keep their original relative order), modelling Python's stable
`sorted(..., key=lambda k: tasks[k].get("created_at", 0))`. -/
def insertByCreated (p : Nat × TaskRecord) :
    List (Nat × TaskRecord) → List (Nat × TaskRecord)
  | [] => [p]
  | q :: rest =>
    if p.2.created_at < q.2.created_at then p :: q :: rest
    else q :: insertByCreated p rest

/-- Stable sort of the registry by `created_at`. -/
def sortByCreated : List (Nat × TaskRecord) → List (Nat × TaskRecord)
  | [] => []
  | p :: rest => insertByCreated p (sortByCreated rest)

/-- The ids collected by the TTL rule of `_purge_old_tasks`: terminal records
with `now - created_at > TASK_TTL_SECONDS`. -/
def ttlRemoveIds (ttl now : Int) (tasks : List (Nat × TaskRecord)) : List Nat :=
  (tasks.filter (fun p =>
    p.2.status.isTerminal && decide (now - p.2.created_at > ttl))).map Prod.fst

/-- The oldest `len(tasks) - MAX_TASK_HISTORY` records by `created_at`
(empty when the registry is at or under the cap). -/
def oldestExcess (maxHistory : Nat) (tasks : List (Nat × TaskRecord)) :
    List (Nat × TaskRecord) :=
  if tasks.length > maxHistory then
    (sortByCreated tasks).take (tasks.length - maxHistory)
  else []

/-- The ids collected by the history-cap rule of `_purge_old_tasks`: the
terminal records among the oldest excess. -/
def capRemoveIds (maxHistory : Nat) (tasks : List (Nat × TaskRecord)) : List Nat :=
  ((oldestExcess maxHistory tasks).filter (fun p => p.2.status.isTerminal)).map Prod.fst

/-- Retention pass `_purge_old_tasks`: pop every id collected by the TTL rule
or the cap
rule. -/
def purgeOldTasks (ttl : Int) (maxHistory : Nat) (now : Int)
    (tasks : List (Nat × TaskRecord)) : List (Nat × TaskRecord) :=
  let toRemove := ttlRemoveIds ttl now tasks ++ capRemoveIds maxHistory tasks
  tasks.filter (fun p => !(toRemove.contains p.1))

/-- One queue item as consumed by the worker loop: the task id, the dequeue
time, the time the outcome is observed, the time `_purge_old_tasks` runs, and
the work function's outcome for this job. -/
structure QueueItem where
  id : Nat
  dq : Int
  fin : Int
  purgeAt : Int
  oc : Outcome
deriving Repr

/-- Worker handling of one dequeued item against the registry: a missing
record is skipped (`if not t: continue`); otherwise the record is processed
by `workerStep` and written back, and — exactly when the work function path
was taken rather than the cancelled-while-queued skip — `_purge_old_tasks`
runs.  Returns the new registry and the processed (id, record), if any. -/
def processItem (ceiling ttl : Int) (maxHistory : Nat)
    (tasks : List (Nat × TaskRecord)) (it : QueueItem) :
    List (Nat × TaskRecord) × Option (Nat × TaskRecord) :=
  match lookupTask tasks it.id with
  | none => (tasks, none)
  | some t =>
    let r := workerStep t ceiling it.dq it.fin it.oc
    let tasks1 := updateStore tasks it.id r.record
    if r.workInvoked then
      (purgeOldTasks ttl maxHistory it.purgeAt tasks1, some (it.id, r.record))
    else
      (tasks1, some (it.id, r.record))

/-- The worker loop (`worker()`): drain the queue items in FIFO order,
handling each in turn; one job's failure is absorbed by `workerStep` and the
loop continues with the next item.  Returns the final registry and the log of
processed (id, record) pairs in order. -/
def workerLoop (ceiling ttl : Int) (maxHistory : Nat) :
    List (Nat × TaskRecord) → List QueueItem →
      List (Nat × TaskRecord) × List (Nat × TaskRecord)
  | tasks, [] => (tasks, [])
  | tasks, it :: rest =>
    let step := processItem ceiling ttl maxHistory tasks it
    let out := workerLoop ceiling ttl maxHistory step.1 rest
    (out.1, step.2.toList ++ out.2)

/-- Concrete instance of the streaming call model used by the witnesses:
two double-stream blocks, three single-stream blocks, all components simple
arithmetic over `Nat`. -/
def demoModel : CallModel Nat Nat Nat Nat where
  xEmbed := fun x => x + 1
  ctxEmbed := fun x => x * 2
  doubleBlocks := [fun p => (p.1 + p.2, p.2 + 1), fun p => (p.1 * 2, p.2 + p.1)]
  concatStreams := fun e h => e * 100 + h
  singleBlocks := [fun c => c + 7, fun c => c * 3, fun c => c + 1]
  removeTxt := fun c => c / 2
  normOut := fun c => c + 5
  projOut := fun c => c * 10

/-- A terminal (DONE) record with the given creation time, for concrete
scenarios. -/
def doneRecord (task_type : String) (created : Int) : TaskRecord :=
  { newTaskRecord task_type none created with status := Status.done }

/-- A three-record registry: one active (QUEUED) record created first, then
two terminal (DONE) records — the concrete scenario for the retention-cap
analysis. -/
def exampleStore : List (Nat × TaskRecord) :=
  [(1, newTaskRecord "a" none 0), (2, doneRecord "b" 1), (3, doneRecord "c" 2)]

/-- A record cancelled while queued: terminal (CANCELLED) with
`cancel_requested` set and `finished_at = 5`, but whose queue entry has not
yet been dequeued by the worker. -/
def c3r : TaskRecord := cancelRecord (newTaskRecord "text2img" none 0) 5

/-- A two-record registry of active QUEUED tasks, for the worker-loop
scenario. -/
def c8tasks : List (Nat × TaskRecord) :=
  [(1, newTaskRecord "a" none 0), (2, newTaskRecord "b" none 1)]

/-- Two queue items: the first job raises an unrelated exception, the second
completes normally afterwards. -/
def c8items : List QueueItem :=
  [⟨1, 10, 11, 12, Outcome.failure "boom"⟩, ⟨2, 13, 14, 15, Outcome.ok "res"⟩]

/-! ### Basic lemmas about the streaming loop -/

theorem streamLoop_fst {α : Type} (fs : List (α → α)) :
    ∀ (i : Nat) (s : α), (streamLoop fs i s).1 = runSequential fs s := by
  induction fs with
  | nil => intro i s; rfl
  | cons f rest ih =>
    intro i s
    simp only [streamLoop, runSequential, List.foldl_cons]
    exact ih (i + 1) (f s)

theorem streamRunFrom_fst {α : Type} (fs : List (α → α)) (i0 : Nat) (s : α) :
    (streamRunFrom fs i0 s).1 = runSequential fs s := by
  cases fs with
  | nil => rfl
  | cons f rest => simpa [streamRunFrom] using streamLoop_fst (f :: rest) i0 s

/-- Pure description of the loop trace, by block count. -/
def loopTrace : Nat → Nat → List Ev
  | 0, _ => []
  | 1, i => [Ev.compute i, Ev.evict i]
  | n + 2, i => Ev.load (i + 1) :: Ev.compute i :: Ev.evict i :: loopTrace (n + 1) (i + 1)

/-- Pure description of the trace of one family run: pre-load of the first
block followed by the loop trace. -/
def famTrace (n i0 : Nat) : List Ev :=
  match n with
  | 0 => []
  | _ + 1 => Ev.load i0 :: loopTrace n i0

theorem streamLoop_snd {α : Type} (fs : List (α → α)) :
    ∀ (i : Nat) (s : α), (streamLoop fs i s).2 = loopTrace fs.length i := by
  induction fs with
  | nil => intro i s; rfl
  | cons f rest ih =>
    intro i s
    cases rest with
    | nil => rfl
    | cons g rest' =>
      show Ev.load (i + 1) :: Ev.compute i :: Ev.evict i ::
            (streamLoop (g :: rest') (i + 1) (f s)).2
          = loopTrace (f :: g :: rest').length i
      rw [ih (i + 1) (f s)]
      rfl

theorem streamRunFrom_snd {α : Type} (fs : List (α → α)) (i0 : Nat) (s : α) :
    (streamRunFrom fs i0 s).2 = famTrace fs.length i0 := by
  cases fs with
  | nil => rfl
  | cons f rest =>
    simp only [streamRunFrom, famTrace, List.length_cons]
    rw [streamLoop_snd (f :: rest) i0 s]
    rfl

/-! ### Residency invariants of the streaming traces -/

theorem checkInv_append (p : List Ev) :
    ∀ (s : Finset Nat) (q : List Ev),
      checkInv s (p ++ q) = (checkInv s p && checkInv (p.foldl applyEv s) q) := by
  induction p with
  | nil => intro s q; simp [checkInv]
  | cons e p' ih =>
    intro s q
    cases e <;> simp [checkInv, applyEv, ih, Bool.and_assoc]

theorem loopTrace_fold (n : Nat) :
    ∀ (i : Nat), (loopTrace (n + 1) i).foldl applyEv {i} = ∅ := by
  induction n with
  | zero =>
    intro i
    simp [loopTrace, applyEv]
  | succ m ih =>
    intro i
    show (loopTrace (m + 2) i).foldl applyEv {i} = ∅
    have h3 : (insert (i + 1) ({i} : Finset Nat)).erase i = {i + 1} := by
      ext x
      simp only [Finset.mem_erase, Finset.mem_insert, Finset.mem_singleton]
      omega
    simp only [loopTrace, List.foldl_cons, applyEv, h3]
    exact ih (i + 1)

theorem checkInv_loopTrace (n : Nat) :
    ∀ (i : Nat), checkInv {i} (loopTrace (n + 1) i) = true := by
  induction n with
  | zero =>
    intro i
    simp [loopTrace, checkInv, applyEv]
  | succ m ih =>
    intro i
    show checkInv {i} (loopTrace (m + 2) i) = true
    have h3 : (insert (i + 1) ({i} : Finset Nat)).erase i = {i + 1} := by
      ext x
      simp only [Finset.mem_erase, Finset.mem_insert, Finset.mem_singleton]
      omega
    have hcard : (insert (i + 1) ({i} : Finset Nat)).card ≤ 2 := by
      apply le_trans (Finset.card_insert_le _ _)
      simp
    have hmem : i ∈ insert (i + 1) ({i} : Finset Nat) := by simp
    simp only [loopTrace, checkInv, applyEv, h3]
    simp [hmem, hcard, ih (i + 1)]

theorem checkInv_famTrace (n i0 : Nat) : checkInv ∅ (famTrace n i0) = true := by
  cases n with
  | zero => rfl
  | succ m =>
    have h0 : applyEv (∅ : Finset Nat) (Ev.load i0) = {i0} := by simp [applyEv]
    simp only [famTrace, checkInv, h0]
    simp only [Bool.and_eq_true, decide_eq_true_eq]
    exact ⟨⟨trivial, by simp⟩, checkInv_loopTrace m i0⟩

theorem famTrace_fold (n i0 : Nat) : (famTrace n i0).foldl applyEv ∅ = ∅ := by
  cases n with
  | zero => rfl
  | succ m =>
    have h0 : applyEv (∅ : Finset Nat) (Ev.load i0) = {i0} := by simp [applyEv]
    simp only [famTrace, List.foldl_cons, h0]
    exact loopTrace_fold m i0

theorem checkEvictAfter_loopTrace_append (n : Nat) :
    ∀ (i : Nat) (q : List Ev),
      checkEvictAfter (loopTrace n i ++ q) = checkEvictAfter q := by
  induction n with
  | zero => intro i q; rfl
  | succ m ih =>
    intro i q
    cases m with
    | zero => simp [loopTrace, checkEvictAfter]
    | succ k =>
      show checkEvictAfter
          (Ev.load (i + 1) :: Ev.compute i :: Ev.evict i :: loopTrace (k + 1) (i + 1) ++ q)
          = checkEvictAfter q
      simp only [List.cons_append, checkEvictAfter]
      simp [ih (i + 1) q]

theorem checkEvictAfter_famTrace_append (n i0 : Nat) (q : List Ev) :
    checkEvictAfter (famTrace n i0 ++ q) = checkEvictAfter q := by
  cases n with
  | zero => rfl
  | succ m =>
    show checkEvictAfter (Ev.load i0 :: (loopTrace (m + 1) i0 ++ q)) = checkEvictAfter q
    simp only [checkEvictAfter]
    exact checkEvictAfter_loopTrace_append (m + 1) i0 q

theorem computeIndices_append (p q : List Ev) :
    computeIndices (p ++ q) = computeIndices p ++ computeIndices q := by
  induction p with
  | nil => rfl
  | cons e p' ih =>
    cases e with
    | load i => simpa [computeIndices] using ih
    | compute i => simpa [computeIndices] using ih
    | evict i => simpa [computeIndices] using ih

theorem computeIndices_loopTrace (n : Nat) :
    ∀ (i : Nat), computeIndices (loopTrace n i) = List.range' i n := by
  induction n with
  | zero => intro i; rfl
  | succ m ih =>
    intro i
    cases m with
    | zero => rfl
    | succ k =>
      show computeIndices (loopTrace (k + 2) i) = List.range' i (k + 2)
      simp only [loopTrace, computeIndices, ih (i + 1)]
      rfl

theorem computeIndices_famTrace (n i0 : Nat) :
    computeIndices (famTrace n i0) = List.range' i0 n := by
  cases n with
  | zero => rfl
  | succ m =>
    show computeIndices (Ev.load i0 :: loopTrace (m + 1) i0) = List.range' i0 (m + 1)
    simp only [computeIndices]
    exact computeIndices_loopTrace (m + 1) i0

/-! ### Claim theorems for the streaming pipeline -/

/-- C1: For every block count N ≥ 1 and identical inputs with no internal
randomness, the streaming forward pass of `StreamingFlux2Transformer.__call__`
(blocks streamed through a 2-slot resident pool, executed in index order, all
double-stream family-A blocks before any single-stream family-B block)
produces output bit-identical to the reference non-streaming execution that
runs all N blocks sequentially fully resident.  The compute events of the
streaming trace are exactly the block indices 0..N−1 in increasing order,
family A first. -/
theorem streaming_matches_sequential_reference {H E C O : Type}
    (m : CallModel H E C O) (hs : H) (ehs : E)
    (h : 1 ≤ m.doubleBlocks.length + m.singleBlocks.length) :
    (streamingCall m hs ehs).1 = referenceCall m hs ehs ∧
    computeIndices (streamingCall m hs ehs).2 =
      List.range (m.doubleBlocks.length + m.singleBlocks.length) := by
  constructor
  · simp only [streamingCall, referenceCall, streamRunFrom_fst]
  · have key := List.range'_append_1 0 m.doubleBlocks.length m.singleBlocks.length
    simp only [Nat.zero_add] at key
    simp only [streamingCall, computeIndices_append, streamRunFrom_snd,
      computeIndices_famTrace, List.range_eq_range', key,
      Nat.add_comm m.singleBlocks.length m.doubleBlocks.length]

/-- Witness for C1 at a concrete model with 2 + 3 blocks and inputs 3, 4. -/
theorem streaming_matches_sequential_reference_witness :
    1 ≤ demoModel.doubleBlocks.length + demoModel.singleBlocks.length ∧
    ((streamingCall demoModel 3 4).1 = referenceCall demoModel 3 4 ∧
      computeIndices (streamingCall demoModel 3 4).2 =
        List.range (demoModel.doubleBlocks.length + demoModel.singleBlocks.length)) :=
  ⟨by decide, streaming_matches_sequential_reference demoModel 3 4 (by decide)⟩

/-- C2: At every instant during a streaming pipeline run over any N ≥ 1
blocks, at most 2 blocks are resident in the fast tier, the block currently
being computed is resident, and each block is evicted back to the reserved
(slow) tier immediately after its own computation completes. -/
theorem streaming_residency_invariant {H E C O : Type}
    (m : CallModel H E C O) (hs : H) (ehs : E)
    (h : 1 ≤ m.doubleBlocks.length + m.singleBlocks.length) :
    checkInv ∅ (streamingCall m hs ehs).2 = true ∧
    checkEvictAfter (streamingCall m hs ehs).2 = true := by
  have htr : (streamingCall m hs ehs).2 =
      famTrace m.doubleBlocks.length 0 ++
        famTrace m.singleBlocks.length m.doubleBlocks.length := by
    simp only [streamingCall, streamRunFrom_snd]
  constructor
  · rw [htr, checkInv_append, famTrace_fold, checkInv_famTrace, checkInv_famTrace]
    rfl
  · rw [htr, checkEvictAfter_famTrace_append]
    have := checkEvictAfter_famTrace_append m.singleBlocks.length m.doubleBlocks.length []
    simpa using this

/-- Witness for C2 at the same concrete 2 + 3 block model. -/
theorem streaming_residency_invariant_witness :
    1 ≤ demoModel.doubleBlocks.length + demoModel.singleBlocks.length ∧
    (checkInv ∅ (streamingCall demoModel 3 4).2 = true ∧
      checkEvictAfter (streamingCall demoModel 3 4).2 = true) :=
  ⟨by decide, streaming_residency_invariant demoModel 3 4 (by decide)⟩

/-! ### Helper lemmas for the task engine -/

theorem key_unique {l : List (Nat × TaskRecord)} (h : (l.map Prod.fst).Nodup)
    {p q : Nat × TaskRecord} (hp : p ∈ l) (hq : q ∈ l) (hfst : p.1 = q.1) :
    p = q := by
  induction l with
  | nil => cases hp
  | cons a rest ih =>
    simp only [List.map_cons, List.nodup_cons] at h
    rcases List.mem_cons.mp hp with hp1 | hp2
    · rcases List.mem_cons.mp hq with hq1 | hq2
      · rw [hp1, hq1]
      · subst hp1
        exact absurd (hfst ▸ List.mem_map_of_mem Prod.fst hq2) h.1
    · rcases List.mem_cons.mp hq with hq1 | hq2
      · subst hq1
        exact absurd (hfst ▸ List.mem_map_of_mem Prod.fst hp2) h.1
      · exact ih h.2 hp2 hq2

theorem insertByCreated_perm (p : Nat × TaskRecord) :
    ∀ l : List (Nat × TaskRecord), List.Perm (insertByCreated p l) (p :: l)
  | [] => List.Perm.refl _
  | q :: rest => by
    simp only [insertByCreated]
    by_cases hlt : p.2.created_at < q.2.created_at
    · rw [if_pos hlt]
    · rw [if_neg hlt]
      exact ((insertByCreated_perm p rest).cons q).trans (List.Perm.swap p q rest)

theorem sortByCreated_perm :
    ∀ l : List (Nat × TaskRecord), List.Perm (sortByCreated l) l
  | [] => List.Perm.refl _
  | p :: rest =>
    (insertByCreated_perm p (sortByCreated rest)).trans
      ((sortByCreated_perm rest).cons p)

theorem mem_of_mem_oldestExcess (maxH : Nat) (tasks : List (Nat × TaskRecord))
    {p : Nat × TaskRecord} (hp : p ∈ oldestExcess maxH tasks) : p ∈ tasks := by
  unfold oldestExcess at hp
  split at hp
  · exact (sortByCreated_perm tasks).mem_iff.mp
      (List.take_subset (tasks.length - maxH) (sortByCreated tasks) hp)
  · cases hp

theorem mem_ttlRemoveIds_iff (ttl now : Int) (tasks : List (Nat × TaskRecord))
    (hnd : (tasks.map Prod.fst).Nodup) {p : Nat × TaskRecord} (hp : p ∈ tasks) :
    p.1 ∈ ttlRemoveIds ttl now tasks ↔
      (p.2.status.isTerminal = true ∧ now - p.2.created_at > ttl) := by
  unfold ttlRemoveIds
  constructor
  · intro h
    rcases List.mem_map.mp h with ⟨q, hq, hqfst⟩
    rcases List.mem_filter.mp hq with ⟨hqmem, hqpred⟩
    have hqp : q = p := key_unique hnd hqmem hp hqfst
    subst hqp
    simpa using hqpred
  · rintro ⟨h1, h2⟩
    exact List.mem_map.mpr ⟨p, List.mem_filter.mpr ⟨hp, by simp [h1, h2]⟩, rfl⟩

theorem mem_capRemoveIds_iff (maxH : Nat) (tasks : List (Nat × TaskRecord))
    (hnd : (tasks.map Prod.fst).Nodup) {p : Nat × TaskRecord} (hp : p ∈ tasks) :
    p.1 ∈ capRemoveIds maxH tasks ↔
      (p.2.status.isTerminal = true ∧ p ∈ oldestExcess maxH tasks) := by
  unfold capRemoveIds
  constructor
  · intro h
    rcases List.mem_map.mp h with ⟨q, hq, hqfst⟩
    rcases List.mem_filter.mp hq with ⟨hqmem, hqpred⟩
    have hqtasks : q ∈ tasks := mem_of_mem_oldestExcess maxH tasks hqmem
    have hqp : q = p := key_unique hnd hqtasks hp hqfst
    subst hqp
    exact ⟨hqpred, hqmem⟩
  · rintro ⟨h1, h2⟩
    exact List.mem_map.mpr ⟨p, List.mem_filter.mpr ⟨h2, h1⟩, rfl⟩

theorem mem_purgeOldTasks_iff (ttl : Int) (maxH : Nat) (now : Int)
    (tasks : List (Nat × TaskRecord)) (hnd : (tasks.map Prod.fst).Nodup)
    {p : Nat × TaskRecord} (hp : p ∈ tasks) :
    p ∈ purgeOldTasks ttl maxH now tasks ↔
      ¬(p.2.status.isTerminal = true ∧
        (now - p.2.created_at > ttl ∨ p ∈ oldestExcess maxH tasks)) := by
  unfold purgeOldTasks
  rw [List.mem_filter]
  simp only [hp, true_and, Bool.not_eq_true', List.contains,
    ← Bool.not_eq_true, List.elem_iff, List.mem_append,
    mem_ttlRemoveIds_iff ttl now tasks hnd hp,
    mem_capRemoveIds_iff maxH tasks hnd hp]
  tauto

theorem purgeOldTasks_sublist (ttl : Int) (maxH : Nat) (now : Int)
    (tasks : List (Nat × TaskRecord)) :
    List.Sublist (purgeOldTasks ttl maxH now tasks) tasks :=
  List.filter_sublist tasks

theorem purgeOldTasks_nodup (ttl : Int) (maxH : Nat) (now : Int)
    (tasks : List (Nat × TaskRecord)) (hnd : (tasks.map Prod.fst).Nodup) :
    ((purgeOldTasks ttl maxH now tasks).map Prod.fst).Nodup :=
  List.Nodup.sublist ((purgeOldTasks_sublist ttl maxH now tasks).map Prod.fst) hnd

theorem lookupTask_mem {tasks : List (Nat × TaskRecord)} {id : Nat}
    {t : TaskRecord} (h : lookupTask tasks id = some t) : (id, t) ∈ tasks := by
  unfold lookupTask at h
  rcases Option.map_eq_some'.mp h with ⟨q, hq, hsnd⟩
  have hmem := List.mem_of_find?_eq_some hq
  have hfst : q.1 = id := by simpa using List.find?_some hq
  have : q = (id, t) := by
    cases q
    simp only at hfst hsnd
    rw [hfst, hsnd]
  exact this ▸ hmem

theorem mem_lookupTask {tasks : List (Nat × TaskRecord)}
    (hnd : (tasks.map Prod.fst).Nodup) {id : Nat} {t : TaskRecord}
    (h : (id, t) ∈ tasks) : lookupTask tasks id = some t := by
  induction tasks with
  | nil => cases h
  | cons a rest ih =>
    simp only [List.map_cons, List.nodup_cons] at hnd
    rcases List.mem_cons.mp h with h1 | h2
    · rw [← h1]
      simp [lookupTask]
    · have hid : ¬(a.1 = id) := by
        intro he
        exact hnd.1 (he ▸ List.mem_map_of_mem Prod.fst h2)
      unfold lookupTask
      rw [List.find?_cons_of_neg _ (by simpa using hid)]
      exact ih hnd.2 h2

theorem updateStore_map_fst (tasks : List (Nat × TaskRecord)) (id : Nat)
    (r : TaskRecord) : (updateStore tasks id r).map Prod.fst = tasks.map Prod.fst := by
  unfold updateStore
  rw [List.map_map]
  apply List.map_congr_left
  intro p _
  by_cases h : p.1 = id <;> simp [h]

theorem lookupTask_updateStore_self {tasks : List (Nat × TaskRecord)} {id : Nat}
    {t : TaskRecord} (h : lookupTask tasks id = some t) (r : TaskRecord) :
    lookupTask (updateStore tasks id r) id = some r := by
  induction tasks with
  | nil => simp [lookupTask] at h
  | cons a rest ih =>
    by_cases ha : a.1 = id
    · simp [lookupTask, updateStore, ha]
    · have h' : lookupTask rest id = some t := by
        unfold lookupTask at h ⊢
        rwa [List.find?_cons_of_neg _ (by simpa using ha)] at h
      show lookupTask (updateStore (a :: rest) id r) id = some r
      unfold updateStore lookupTask
      rw [List.map_cons, if_neg ha, List.find?_cons_of_neg _ (by simpa using ha)]
      exact ih h'

theorem lookupTask_updateStore_ne {tasks : List (Nat × TaskRecord)}
    {id id' : Nat} (hne : id ≠ id') (r : TaskRecord) :
    lookupTask (updateStore tasks id' r) id = lookupTask tasks id := by
  induction tasks with
  | nil => rfl
  | cons a rest ih =>
    by_cases ha : a.1 = id'
    · have hne2 : ¬(a.1 = id) := by rw [ha]; exact fun he => hne he.symm
      unfold lookupTask updateStore
      simp only [List.map_cons, if_pos ha]
      rw [List.find?_cons_of_neg _ (by simpa using hne2),
        List.find?_cons_of_neg _ (by simpa using hne2)]
      exact ih
    · unfold lookupTask updateStore
      simp only [List.map_cons, if_neg ha]
      by_cases hb : a.1 = id
      · rw [List.find?_cons_of_pos _ (by simpa using hb),
          List.find?_cons_of_pos _ (by simpa using hb)]
      · rw [List.find?_cons_of_neg _ (by simpa using hb),
          List.find?_cons_of_neg _ (by simpa using hb)]
        exact ih

theorem lookupTask_purge_of_active {ttl : Int} {maxH : Nat} {now : Int}
    {tasks : List (Nat × TaskRecord)} (hnd : (tasks.map Prod.fst).Nodup)
    {id : Nat} {t : TaskRecord} (h : lookupTask tasks id = some t)
    (hact : t.status.isTerminal = false) :
    lookupTask (purgeOldTasks ttl maxH now tasks) id = some t := by
  have hmem : (id, t) ∈ tasks := lookupTask_mem h
  have hkeep : (id, t) ∈ purgeOldTasks ttl maxH now tasks := by
    rw [mem_purgeOldTasks_iff ttl maxH now tasks hnd hmem]
    simp [hact]
  exact mem_lookupTask (purgeOldTasks_nodup ttl maxH now tasks hnd) hkeep

theorem workerStep_terminal (t : TaskRecord) (c dq fin : Int) (oc : Outcome) :
    (workerStep t c dq fin oc).record.status.isTerminal = true := by
  by_cases hc : t.cancel_requested
  · simp [workerStep, hc, Status.isTerminal]
  · cases oc with
    | ok r => simp [workerStep, hc, Status.isTerminal]
    | cancelledMarker =>
      simp only [workerStep, hc, if_false]
      unfold handleCancelledUnwind
      by_cases hto : c ≤ elapsedSince (some dq) dq fin
      · simp [hto, Status.isTerminal]
      · simp [hto, Status.isTerminal]
    | failure m => simp [workerStep, hc, Status.isTerminal]

/-! ### Claim theorems for the task engine -/

/-- C3 counterexample: a record cancelled while QUEUED is already terminal
(CANCELLED, `finished_at = 5`), yet when the worker dequeues the task's
still-pending queue entry it rewrites `message` to "Cancelled before
processing." and re-stamps `finished_at`, mutating the terminal record. -/
theorem worker_dequeue_mutates_terminal_record :
    c3r.status.isTerminal = true ∧
    (workerStep c3r 600 9 9 (Outcome.ok "r")).record ≠ c3r := by
  decide

/-- C3 (amended): once a record is terminal, a later cancel request returns
it unchanged; however the worker dequeuing a cancel-requested entry rewrites
`status` to CANCELLED and re-stamps `message` and `finished_at` even when the
record is already terminal, leaving every other field unchanged — and it
never invokes the work function on that path. -/
theorem terminal_record_mutation (t : TaskRecord) (now : Int)
    (ht : t.status.isTerminal = true) :
    cancelRecord t now = t ∧
    (∀ (ceiling dq fin : Int) (oc : Outcome), t.cancel_requested = true →
      (workerStep t ceiling dq fin oc).record =
        { t with
          status := Status.cancelled
          finished_at := some dq
          message := "Cancelled before processing." } ∧
      (workerStep t ceiling dq fin oc).workInvoked = false) := by
  constructor
  · simp [cancelRecord, ht]
  · intro ceiling dq fin oc hcr
    constructor <;> simp [workerStep, hcr]

/-- Witness for the amended C3 at the cancelled-while-queued record `c3r`. -/
theorem terminal_record_mutation_witness :
    c3r.status.isTerminal = true ∧
    cancelRecord c3r 7 = c3r ∧
    (workerStep c3r 600 9 9 (Outcome.ok "r")).record =
      { c3r with
        status := Status.cancelled
        finished_at := some 9
        message := "Cancelled before processing." } ∧
    (workerStep c3r 600 9 9 (Outcome.ok "r")).workInvoked = false :=
  have h7 := terminal_record_mutation c3r 7 (by decide)
  have h9 := (terminal_record_mutation c3r 9 (by decide)).2 600 9 9
    (Outcome.ok "r") (by decide)
  ⟨by decide, h7.1, h9.1, h9.2⟩

/-- C4 counterexample: the very first create request against an idle engine
(no record in the registry, nothing processing) reports queue position 1, not
0 — the registry is populated before the active count is taken. -/
theorem create_queue_position_counterexample :
    (fluxCreate ⟨[], []⟩ 0 "text2img" 5).2 = 1 ∧
    (fluxCreate ⟨[], []⟩ 0 "text2img" 5).2 ≠ 0 := by
  decide

/-- C4 (amended): the queue_position returned by task creation is the count
of active (QUEUED/PROCESSING) records including the newly created task — the
count of active predecessors plus one.  Submitting three tasks back-to-back
into an idle engine reports queue positions 1, 2, 3. -/
theorem create_queue_position_counts_self (st : EngineState) (id : Nat)
    (task_type : String) (now : Int) :
    (fluxCreate st id task_type now).2 = activeCount st.tasks + 1 ∧
    ((fluxCreate ⟨[], []⟩ 1 "text2img" 10).2,
      (fluxCreate (fluxCreate ⟨[], []⟩ 1 "text2img" 10).1 2 "text2img" 11).2,
      (fluxCreate (fluxCreate (fluxCreate ⟨[], []⟩ 1 "text2img" 10).1
          2 "text2img" 11).1 3 "text2img" 12).2) = (1, 2, 3) := by
  constructor
  · simp [fluxCreate, activeCount, List.filter_append, newTaskRecord]
  · decide

/-- C5 counterexample: cap 1, registry `exampleStore` (the active record is
the oldest).  The cap rule examines only the oldest `3 − 1 = 2` records,
skips the active one and evicts one terminal record: the registry ends at
size 2, still above the cap, with the younger terminal record kept. -/
theorem purge_cap_counterexample :
    (purgeOldTasks 3600 1 10 exampleStore).length = 2 ∧
    ¬((purgeOldTasks 3600 1 10 exampleStore).length ≤ 1) ∧
    (3, doneRecord "c" 2) ∈ purgeOldTasks 3600 1 10 exampleStore := by
  decide

/-- C5 (amended): active (QUEUED/PROCESSING) records are never evicted by the
TTL rule or the cap rule; a record is evicted exactly when it is terminal and
either TTL-expired or among the oldest `size − cap` records by `created_at` —
so when active records fall inside that oldest window the registry can remain
above the cap and younger terminal records are not evicted. -/
theorem purge_retention_characterization (ttl : Int) (maxH : Nat) (now : Int)
    (tasks : List (Nat × TaskRecord)) (hnd : (tasks.map Prod.fst).Nodup)
    (p : Nat × TaskRecord) (hp : p ∈ tasks) :
    ((p.2.status = Status.queued ∨ p.2.status = Status.processing) →
      p ∈ purgeOldTasks ttl maxH now tasks) ∧
    (p ∈ purgeOldTasks ttl maxH now tasks ↔
      ¬(p.2.status.isTerminal = true ∧
        (now - p.2.created_at > ttl ∨ p ∈ oldestExcess maxH tasks))) := by
  have hiff := mem_purgeOldTasks_iff ttl maxH now tasks hnd hp
  refine ⟨?_, hiff⟩
  intro hact
  rw [hiff]
  rintro ⟨hterm, _⟩
  rcases hact with h | h <;> rw [h] at hterm <;> simp [Status.isTerminal] at hterm

/-- Witness for the amended C5 at `exampleStore` with cap 1, at the younger
terminal record (id 3): it is kept exactly because it is outside the oldest
window, even though the registry is above the cap. -/
theorem purge_retention_characterization_witness :
    (exampleStore.map Prod.fst).Nodup ∧
    (3, doneRecord "c" 2) ∈ exampleStore ∧
    (((3, doneRecord "c" 2).2.status = Status.queued ∨
        (3, doneRecord "c" 2).2.status = Status.processing) →
      (3, doneRecord "c" 2) ∈ purgeOldTasks 3600 1 10 exampleStore) ∧
    ((3, doneRecord "c" 2) ∈ purgeOldTasks 3600 1 10 exampleStore ↔
      ¬((3, doneRecord "c" 2).2.status.isTerminal = true ∧
        (10 - (3, doneRecord "c" 2).2.created_at > 3600 ∨
          (3, doneRecord "c" 2) ∈ oldestExcess 1 exampleStore))) :=
  have h := purge_retention_characterization 3600 1 10 exampleStore (by decide)
    (3, doneRecord "c" 2) (by decide)
  ⟨by decide, by decide, h.1, h.2⟩

/-- C6: whenever a running work function unwinds with the Cancelled marker,
the Executor classifies the terminal state retroactively: elapsed time at or
beyond the ceiling gives TIMEOUT with the error field populated, otherwise
CANCELLED; `finished_at` is stamped in both cases. -/
theorem cancelled_unwind_classification (t : TaskRecord) (ceiling dq fin : Int)
    (hc : t.cancel_requested = false) :
    (ceiling ≤ fin - dq →
      (workerStep t ceiling dq fin Outcome.cancelledMarker).record.status =
          Status.timeout ∧
      (workerStep t ceiling dq fin Outcome.cancelledMarker).record.error =
          "Task exceeded " ++ toString ceiling ++ "s limit" ∧
      (workerStep t ceiling dq fin Outcome.cancelledMarker).record.finished_at =
          some fin) ∧
    (fin - dq < ceiling →
      (workerStep t ceiling dq fin Outcome.cancelledMarker).record.status =
          Status.cancelled ∧
      (workerStep t ceiling dq fin Outcome.cancelledMarker).record.finished_at =
          some fin) := by
  have he : elapsedSince (some dq) dq fin = fin - dq := by
    unfold elapsedSince
    by_cases h0 : dq = 0 <;> simp [h0]
  constructor
  · intro hto
    simp [workerStep, hc, handleCancelledUnwind, he, hto]
  · intro hlt
    simp [workerStep, hc, handleCancelledUnwind, he, not_le.mpr hlt]

/-- Witness for C6: a job started at 10 unwinding at 700 against ceiling 600
is classified TIMEOUT; unwinding at 500 is classified CANCELLED. -/
theorem cancelled_unwind_classification_witness :
    (newTaskRecord "text2img" none 0).cancel_requested = false ∧
    ((600 : Int) ≤ 700 - 10 ∧
      (workerStep (newTaskRecord "text2img" none 0) 600 10 700
          Outcome.cancelledMarker).record.status = Status.timeout) ∧
    ((500 : Int) - 10 < 600 ∧
      (workerStep (newTaskRecord "text2img" none 0) 600 10 500
          Outcome.cancelledMarker).record.status = Status.cancelled) :=
  ⟨rfl,
    ⟨by decide,
      ((cancelled_unwind_classification (newTaskRecord "text2img" none 0)
        600 10 700 rfl).1 (by decide)).1⟩,
    ⟨by decide,
      ((cancelled_unwind_classification (newTaskRecord "text2img" none 0)
        600 10 500 rfl).2 (by decide)).1⟩⟩

/-- C7: cancelling a QUEUED record transitions it directly to CANCELLED with
the "Cancelled while queued." message and `finished_at` stamped; the worker
never invokes the work function for it (it skips on dequeue); and cancel on
an already-terminal record returns the current record unchanged. -/
theorem cancel_queued_no_work (t : TaskRecord) (now : Int)
    (hq : t.status = Status.queued) :
    (cancelRecord t now).status = Status.cancelled ∧
    (cancelRecord t now).message = "Cancelled while queued." ∧
    (cancelRecord t now).finished_at = some now ∧
    (∀ (ceiling dq fin : Int) (oc : Outcome),
      (workerStep (cancelRecord t now) ceiling dq fin oc).workInvoked = false) ∧
    (∀ (u : TaskRecord) (m : Int), u.status.isTerminal = true →
      cancelRecord u m = u) := by
  have hnt : t.status.isTerminal = false := by rw [hq]; rfl
  refine ⟨?_, ?_, ?_, ?_, ?_⟩
  · simp [cancelRecord, hq, Status.isTerminal]
  · simp [cancelRecord, hq, Status.isTerminal]
  · simp [cancelRecord, hq, Status.isTerminal]
  · intro ceiling dq fin oc
    have hcr : (cancelRecord t now).cancel_requested = true := by
      simp [cancelRecord, hq, Status.isTerminal]
    simp [workerStep, hcr]
  · intro u m hu
    simp [cancelRecord, hu]

/-- Witness for C7 at a fresh OCR task record cancelled while queued. -/
theorem cancel_queued_no_work_witness :
    (newTaskRecord "ocr" (some "img.png") 3).status = Status.queued ∧
    (cancelRecord (newTaskRecord "ocr" (some "img.png") 3) 4).status =
      Status.cancelled ∧
    (cancelRecord (newTaskRecord "ocr" (some "img.png") 3) 4).message =
      "Cancelled while queued." ∧
    (cancelRecord (newTaskRecord "ocr" (some "img.png") 3) 4).finished_at =
      some 4 ∧
    (workerStep (cancelRecord (newTaskRecord "ocr" (some "img.png") 3) 4)
        300 9 9 (Outcome.ok "text")).workInvoked = false ∧
    cancelRecord (doneRecord "x" 0) 5 = doneRecord "x" 0 :=
  have h := cancel_queued_no_work (newTaskRecord "ocr" (some "img.png") 3) 4 rfl
  ⟨rfl, h.1, h.2.1, h.2.2.1, h.2.2.2.1 300 9 9 (Outcome.ok "text"),
    h.2.2.2.2 (doneRecord "x" 0) 5 (by decide)⟩

/-- C9 counterexample: on normal completion the worker performs no VRAM
cleanup at all, and on the cancellation path the cleanup runs after — not
before — the record is marked terminal. -/
theorem vram_cleanup_counterexample :
    WAction.cleanupVram ∉
      (workerStep (newTaskRecord "text2img" none 0) 600 1 2
        (Outcome.ok "out.png")).actions ∧
    (workerStep (newTaskRecord "text2img" none 0) 600 1 2
        Outcome.cancelledMarker).actions =
      [WAction.markTerminal, WAction.cleanupVram, WAction.purge] := by
  decide

/-- C9 (amended): the memory-reclamation step runs on the cancellation/timeout
path and on the unrelated-failure path, immediately after the record is
marked terminal (and before the retention pass); it is not performed on
normal completion. -/
theorem vram_cleanup_amended (t : TaskRecord) (ceiling dq fin : Int)
    (hc : t.cancel_requested = false) :
    (workerStep t ceiling dq fin Outcome.cancelledMarker).actions =
      [WAction.markTerminal, WAction.cleanupVram, WAction.purge] ∧
    (∀ msg, (workerStep t ceiling dq fin (Outcome.failure msg)).actions =
      [WAction.markTerminal, WAction.cleanupVram, WAction.purge]) ∧
    (∀ res, WAction.cleanupVram ∉
      (workerStep t ceiling dq fin (Outcome.ok res)).actions) := by
  refine ⟨by simp [workerStep, hc], fun msg => by simp [workerStep, hc],
    fun res => ?_⟩
  simp [workerStep, hc]

/-- Witness for the amended C9 at a fresh record. -/
theorem vram_cleanup_amended_witness :
    (newTaskRecord "text2img" none 0).cancel_requested = false ∧
    (workerStep (newTaskRecord "text2img" none 0) 600 1 2
        Outcome.cancelledMarker).actions =
      [WAction.markTerminal, WAction.cleanupVram, WAction.purge] ∧
    (workerStep (newTaskRecord "text2img" none 0) 600 1 2
        (Outcome.failure "x")).actions =
      [WAction.markTerminal, WAction.cleanupVram, WAction.purge] ∧
    WAction.cleanupVram ∉
      (workerStep (newTaskRecord "text2img" none 0) 600 1 2
        (Outcome.ok "p")).actions :=
  have h := vram_cleanup_amended (newTaskRecord "text2img" none 0) 600 1 2 rfl
  ⟨rfl, h.1, h.2.1 "x", h.2.2 "p"⟩

/-- C10: an OCR create request whose image_path is missing, empty or does not
name an existing file, or whose task tag is not a registered prompt, is
rejected with an error and leaves the engine state (registry and queue)
unchanged. -/
theorem ocr_create_rejects_invalid (fE : String → Bool) (st : EngineState)
    (id : Nat) (image_path : Option String) (task_type : String) (now : Int)
    (h : image_path = none ∨ image_path = some "" ∨
      (∃ p, image_path = some p ∧ fE p = false) ∨
      ocrPromptKeys.contains task_type = false) :
    (ocrCreate fE st id image_path task_type now).1 = st ∧
    ∃ e, (ocrCreate fE st id image_path task_type now).2 = Except.error e := by
  rcases h with h | h | ⟨p, hp, hfe⟩ | h
  · subst h
    exact ⟨rfl, "Missing or invalid image_path", rfl⟩
  · subst h
    constructor
    · simp [ocrCreate]
    · exact ⟨"Missing or invalid image_path", by simp [ocrCreate]⟩
  · subst hp
    by_cases hpe : p = ""
    · constructor
      · simp [ocrCreate, hpe]
      · exact ⟨"Missing or invalid image_path", by simp [ocrCreate, hpe]⟩
    · constructor
      · simp [ocrCreate, hpe, hfe]
      · exact ⟨"Missing or invalid image_path", by simp [ocrCreate, hpe, hfe]⟩
  · cases image_path with
    | none => exact ⟨rfl, "Missing or invalid image_path", rfl⟩
    | some p =>
      by_cases hpe : p = ""
      · constructor
        · simp [ocrCreate, hpe]
        · exact ⟨"Missing or invalid image_path", by simp [ocrCreate, hpe]⟩
      · by_cases hfe : fE p
        · have hmem : task_type ∉ ocrPromptKeys := by simpa using h
          constructor
          · simp [ocrCreate, hpe, hfe, hmem]
          · exact ⟨"Unknown task: " ++ task_type, by simp [ocrCreate, hpe, hfe, hmem]⟩
        · constructor
          · simp [ocrCreate, hpe, hfe]
          · exact ⟨"Missing or invalid image_path", by simp [ocrCreate, hpe, hfe]⟩

/-- Witness for C10: a create request naming a non-existent file is rejected
and the engine state is unchanged. -/
theorem ocr_create_rejects_invalid_witness :
    ((some "ghost.png" : Option String) = none ∨
      (some "ghost.png" : Option String) = some "" ∨
      (∃ p, (some "ghost.png" : Option String) = some p ∧
        (fun _ : String => false) p = false) ∨
      ocrPromptKeys.contains "ocr" = false) ∧
    (ocrCreate (fun _ => false) ⟨[], []⟩ 7 (some "ghost.png") "ocr" 42).1 =
      (⟨[], []⟩ : EngineState) ∧
    (ocrCreate (fun _ => false) ⟨[], []⟩ 7 (some "ghost.png") "ocr" 42).2 =
      Except.error "Missing or invalid image_path" :=
  have h := ocr_create_rejects_invalid (fun _ => false) ⟨[], []⟩ 7
    (some "ghost.png") "ocr" 42 (Or.inr (Or.inr (Or.inl ⟨"ghost.png", rfl, rfl⟩)))
  ⟨Or.inr (Or.inr (Or.inl ⟨"ghost.png", rfl, rfl⟩)), h.1, rfl⟩

theorem processItem_step (ceiling ttl : Int) (maxH : Nat)
    (tasks : List (Nat × TaskRecord)) (it : QueueItem) {t : TaskRecord}
    (hlk : lookupTask tasks it.id = some t)
    (hstore : (tasks.map Prod.fst).Nodup) :
    ∃ tasks2,
      processItem ceiling ttl maxH tasks it =
        (tasks2, some (it.id, (workerStep t ceiling it.dq it.fin it.oc).record)) ∧
      (tasks2.map Prod.fst).Nodup ∧
      (∀ (id2 : Nat) (t2 : TaskRecord), id2 ≠ it.id →
        lookupTask tasks id2 = some t2 → t2.status.isTerminal = false →
        lookupTask tasks2 id2 = some t2) := by
  have hnd1 : ((updateStore tasks it.id
      (workerStep t ceiling it.dq it.fin it.oc).record).map Prod.fst).Nodup := by
    rw [updateStore_map_fst]; exact hstore
  by_cases hw : (workerStep t ceiling it.dq it.fin it.oc).workInvoked
  · refine ⟨purgeOldTasks ttl maxH it.purgeAt
        (updateStore tasks it.id (workerStep t ceiling it.dq it.fin it.oc).record),
      ?_, purgeOldTasks_nodup _ _ _ _ hnd1, ?_⟩
    · unfold processItem
      rw [hlk]
      simp [hw]
    · intro id2 t2 hne hl2 hact2
      have hl1 : lookupTask (updateStore tasks it.id
          (workerStep t ceiling it.dq it.fin it.oc).record) id2 = some t2 := by
        rw [lookupTask_updateStore_ne hne]; exact hl2
      exact lookupTask_purge_of_active hnd1 hl1 hact2
  · refine ⟨updateStore tasks it.id
        (workerStep t ceiling it.dq it.fin it.oc).record, ?_, hnd1, ?_⟩
    · unfold processItem
      rw [hlk]
      simp [hw]
    · intro id2 t2 hne hl2 _
      rw [lookupTask_updateStore_ne hne]; exact hl2

theorem workerLoop_processes_all (ceiling ttl : Int) (maxH : Nat)
    (items : List QueueItem) :
    ∀ tasks : List (Nat × TaskRecord),
      (tasks.map Prod.fst).Nodup →
      (items.map QueueItem.id).Nodup →
      (∀ it ∈ items, ∃ t, lookupTask tasks it.id = some t ∧
        t.status.isTerminal = false) →
      (workerLoop ceiling ttl maxH tasks items).2.length = items.length ∧
      (∀ r ∈ (workerLoop ceiling ttl maxH tasks items).2,
        r.2.status.isTerminal = true) := by
  induction items with
  | nil =>
    intro tasks _ _ _
    exact ⟨rfl, fun r hr => absurd hr (List.not_mem_nil r)⟩
  | cons it rest ih =>
    intro tasks hstore hids hfound
    obtain ⟨t, hlk, hact⟩ := hfound it (List.mem_cons_self it rest)
    simp only [List.map_cons, List.nodup_cons] at hids
    obtain ⟨tasks2, hpi, hnd2, hpres⟩ :=
      processItem_step ceiling ttl maxH tasks it hlk hstore
    have hfound2 : ∀ it2 ∈ rest, ∃ t2, lookupTask tasks2 it2.id = some t2 ∧
        t2.status.isTerminal = false := by
      intro it2 hit2
      obtain ⟨t2, hlk2, hact2⟩ := hfound it2 (List.mem_cons_of_mem it hit2)
      have hne : it2.id ≠ it.id := by
        intro he
        exact hids.1 (by rw [← he]; exact List.mem_map_of_mem QueueItem.id hit2)
      exact ⟨t2, hpres it2.id t2 hne hlk2 hact2, hact2⟩
    obtain ⟨hlen, hterm⟩ := ih tasks2 hnd2 hids.2 hfound2
    constructor
    · simp only [workerLoop]
      rw [hpi]
      simp [hlen]
    · intro r hr
      simp only [workerLoop] at hr
      rw [hpi] at hr
      simp only [Option.toList_some, List.singleton_append, List.mem_cons] at hr
      rcases hr with rfl | hr
      · exact workerStep_terminal t ceiling it.dq it.fin it.oc
      · exact hterm r hr

/-- C8: every exception raised by the work function other than the Cancelled
marker is converted at the Executor boundary into a terminal ERROR record
whose error field holds the exception message verbatim, with `finished_at`
stamped; and the worker loop survives any job's failure — over any batch of
distinct queued items backed by active records it processes every item,
always producing terminal records. -/
theorem worker_absorbs_failures (ceiling ttl : Int) (maxH : Nat) :
    (∀ (t : TaskRecord) (dq fin : Int) (msg : String),
      t.cancel_requested = false →
      (workerStep t ceiling dq fin (Outcome.failure msg)).record.status =
          Status.error ∧
      (workerStep t ceiling dq fin (Outcome.failure msg)).record.error = msg ∧
      (workerStep t ceiling dq fin (Outcome.failure msg)).record.finished_at =
          some fin) ∧
    (∀ (items : List QueueItem) (tasks : List (Nat × TaskRecord)),
      (tasks.map Prod.fst).Nodup →
      (items.map QueueItem.id).Nodup →
      (∀ it ∈ items, ∃ t, lookupTask tasks it.id = some t ∧
        t.status.isTerminal = false) →
      (workerLoop ceiling ttl maxH tasks items).2.length = items.length ∧
      (∀ r ∈ (workerLoop ceiling ttl maxH tasks items).2,
        r.2.status.isTerminal = true)) := by
  constructor
  · intro t dq fin msg hc
    refine ⟨?_, ?_, ?_⟩ <;> simp [workerStep, hc]
  · intro items tasks h1 h2 h3
    exact workerLoop_processes_all ceiling ttl maxH items tasks h1 h2 h3

/-- Witness for C8: a job failing with "boom" yields a terminal ERROR record
carrying the message verbatim, and a two-item batch whose first job fails is
still fully processed (two log entries). -/
theorem worker_absorbs_failures_witness :
    (newTaskRecord "a" none 0).cancel_requested = false ∧
    (workerStep (newTaskRecord "a" none 0) 600 10 11
        (Outcome.failure "boom")).record.status = Status.error ∧
    (workerStep (newTaskRecord "a" none 0) 600 10 11
        (Outcome.failure "boom")).record.error = "boom" ∧
    (c8tasks.map Prod.fst).Nodup ∧
    (c8items.map QueueItem.id).Nodup ∧
    (workerLoop 600 3600 100 c8tasks c8items).2.length = c8items.length :=
  have h := worker_absorbs_failures 600 3600 100
  have hf := h.1 (newTaskRecord "a" none 0) 10 11 "boom" rfl
  have hfound : ∀ it ∈ c8items, ∃ t, lookupTask c8tasks it.id = some t ∧
      t.status.isTerminal = false := by
    intro it hit
    simp only [c8items, List.mem_cons, List.not_mem_nil, or_false] at hit
    rcases hit with rfl | rfl
    · exact ⟨newTaskRecord "a" none 0, by decide, by decide⟩
    · exact ⟨newTaskRecord "b" none 1, by decide, by decide⟩
  have hl := (h.2 c8items c8tasks (by decide) (by decide) hfound).1
  ⟨rfl, hf.1, hf.2.1, by decide, by decide, hl⟩

end Lumina
